import Mathlib

/-!
Verification development for the certificate-trust subsystem of
bevy_quinnet.  Bytes are modelled as `Nat` values below 256, byte strings
as `List Nat`, server names as `List Char`.  Machine 32-bit words are
`Nat` reduced modulo `2 ^ 32`.
-/

namespace Quinnet

/-- Reduce a natural number to a 32-bit machine word. -/
def w32 (n : Nat) : Nat := n % 4294967296

/-- Right rotation of a 32-bit word by `k` bits. -/
def rotR32 (x k : Nat) : Nat :=
  w32 (((x % 4294967296) >>> k) ||| ((x % 4294967296) <<< (32 - k)))

/-- SHA-256 big sigma 0. -/
def sigUpper0 (x : Nat) : Nat := (rotR32 x 2) ^^^ (rotR32 x 13) ^^^ (rotR32 x 22)

/-- SHA-256 big sigma 1. -/
def sigUpper1 (x : Nat) : Nat := (rotR32 x 6) ^^^ (rotR32 x 11) ^^^ (rotR32 x 25)

/-- SHA-256 small sigma 0. -/
def sigLower0 (x : Nat) : Nat := (rotR32 x 7) ^^^ (rotR32 x 18) ^^^ (x >>> 3)

/-- SHA-256 small sigma 1. -/
def sigLower1 (x : Nat) : Nat := (rotR32 x 17) ^^^ (rotR32 x 19) ^^^ (x >>> 10)

/-- SHA-256 choice function. -/
def chf (x y z : Nat) : Nat :=
  (x &&& y) ^^^ (((x % 4294967296) ^^^ 4294967295) &&& z)

/-- SHA-256 majority function. -/
def majf (x y z : Nat) : Nat := (x &&& y) ^^^ (x &&& z) ^^^ (y &&& z)

/-- The 64 SHA-256 round constants, written in decimal. -/
def sha256K : List Nat :=
  [1116352408, 1899447441, 3049323471, 3921009573,
   961987163, 1508970993, 2453635748, 2870763221,
   3624381080, 310598401, 607225278, 1426881987,
   1925078388, 2162078206, 2614888103, 3248222580,
   3835390401, 4022224774, 264347078, 604807628,
   770255983, 1249150122, 1555081692, 1996064986,
   2554220882, 2821834349, 2952996808, 3210313671,
   3336571891, 3584528711, 113926993, 338241895,
   666307205, 773529912, 1294757372, 1396182291,
   1695183700, 1986661051, 2177026350, 2456956037,
   2730485921, 2820302411, 3259730800, 3345764771,
   3516065817, 3600352804, 4094571909, 275423344,
   430227734, 506948616, 659060556, 883997877,
   958139571, 1322822218, 1537002063, 1747873779,
   1955562222, 2024104815, 2227730452, 2361852424,
   2428436474, 2756734187, 3204031479, 3329325298]

/-- Working state of the SHA-256 compression function: eight 32-bit words. -/
structure Sha256State where
  a : Nat
  b : Nat
  c : Nat
  d : Nat
  e : Nat
  f : Nat
  g : Nat
  h : Nat

/-- Initial SHA-256 hash state, written in decimal. -/
def sha256Init : Sha256State :=
  ⟨1779033703, 3144134277, 1013904242, 2773480762,
   1359893119, 2600822924, 528734635, 1541459225⟩

/-- One SHA-256 round with round constant `k` and schedule word `w`. -/
def sha256Round (st : Sha256State) (k w : Nat) : Sha256State :=
  let t1 := w32 (st.h + sigUpper1 st.e + chf st.e st.f st.g + k + w)
  let t2 := w32 (sigUpper0 st.a + majf st.a st.b st.c)
  ⟨w32 (t1 + t2), st.a, st.b, st.c, w32 (st.d + t1), st.e, st.f, st.g⟩

/-- Extend the message schedule by `k` further words. -/
def sha256SchedAux : Nat → List Nat → List Nat
  | 0, acc => acc
  | k + 1, acc =>
    let n := acc.length
    let word := w32 (sigLower1 (acc.getD (n - 2) 0) + acc.getD (n - 7) 0 +
      sigLower0 (acc.getD (n - 15) 0) + acc.getD (n - 16) 0)
    sha256SchedAux k (acc ++ [word])

/-- The 64-word message schedule for one 16-word block. -/
def sha256Schedule (ws : List Nat) : List Nat := sha256SchedAux 48 ws

/-- Big-endian 32-bit words from a byte list (groups of four bytes). -/
def wordsBE : List Nat → List Nat
  | b0 :: b1 :: b2 :: b3 :: rest =>
    (((b0 * 256 + b1) * 256 + b2) * 256 + b3) :: wordsBE rest
  | _ => []

/-- Process one 64-byte block through the SHA-256 compression function. -/
def sha256Compress (st : Sha256State) (block : List Nat) : Sha256State :=
  let ws := sha256Schedule (wordsBE block)
  let fin := (sha256K.zip ws).foldl (fun s kw => sha256Round s kw.1 kw.2) st
  ⟨w32 (st.a + fin.a), w32 (st.b + fin.b), w32 (st.c + fin.c),
   w32 (st.d + fin.d), w32 (st.e + fin.e), w32 (st.f + fin.f),
   w32 (st.g + fin.g), w32 (st.h + fin.h)⟩

/-- Big-endian byte expansion of a number into `k` bytes. -/
def toBytesBE : Nat → Nat → List Nat
  | 0, _ => []
  | k + 1, n => toBytesBE k (n / 256) ++ [n % 256]

/-- SHA-256 message padding: a 0x80 byte, zeros to 56 mod 64, then the
bit length on eight big-endian bytes. -/
def sha256Pad (msg : List Nat) : List Nat :=
  msg ++ 0x80 :: (List.replicate ((119 - msg.length % 64) % 64) 0 ++
    toBytesBE 8 (8 * msg.length))

/-- Split a byte list into 64-byte blocks. -/
def blocks64 (l : List Nat) : List (List Nat) :=
  match l with
  | [] => []
  | a :: rest => ((a :: rest).take 64) :: blocks64 ((a :: rest).drop 64)
termination_by l.length
decreasing_by simp; omega

/-- The digest bytes of a final hash state: eight big-endian words. -/
def digestBytes (st : Sha256State) : List Nat :=
  toBytesBE 4 st.a ++ toBytesBE 4 st.b ++ toBytesBE 4 st.c ++
  toBytesBE 4 st.d ++ toBytesBE 4 st.e ++ toBytesBE 4 st.f ++
  toBytesBE 4 st.g ++ toBytesBE 4 st.h

/-- SHA-256 of a byte string, as 32 digest bytes.  Models
`ring::digest::digest(&ring::digest::SHA256, bytes)`. -/
def sha256 (msg : List Nat) : List Nat :=
  digestBytes ((blocks64 (sha256Pad msg)).foldl sha256Compress sha256Init)

/-- A byte list is a valid `[u8; 32]` content: 32 entries, each below 256. -/
def ValidBytes32 (l : List Nat) : Prop := l.length = 32 ∧ ∀ b ∈ l, b < 256

instance (l : List Nat) : Decidable (ValidBytes32 l) := by
  unfold ValidBytes32; infer_instance

/-- SHA-256 hash of the certificate data in DER form; embeds the Rust
struct `CertificateFingerprint([u8; 32])`. -/
structure CertificateFingerprint where
  bytes : List Nat
  valid : ValidBytes32 bytes

instance : DecidableEq CertificateFingerprint := fun a b =>
  if h : a.bytes = b.bytes then
    Decidable.isTrue (by cases a; cases b; simpa using h)
  else
    Decidable.isFalse (fun e => h (congrArg CertificateFingerprint.bytes e))

/-- Sample fingerprint with all bytes zero, for concrete instances. -/
def zeroFingerprint : CertificateFingerprint :=
  ⟨List.replicate 32 0, by decide⟩

/-- Sample fingerprint with all bytes one, for concrete instances. -/
def oneFingerprint : CertificateFingerprint :=
  ⟨List.replicate 32 1, by decide⟩

/-- Names of the traits derived on `CertificateFingerprint` in the source
(`#[derive(Debug, Clone, Eq, PartialEq)]`). -/
def certificateFingerprintDerives : List String :=
  ["Debug", "Clone", "Eq", "PartialEq"]

/-- The base64 alphabet, in value order. -/
def b64Chars : List Char :=
  "ABCDEFGHIJKLMNOPQRSTUVWXYZabcdefghijklmnopqrstuvwxyz0123456789+/".toList

/-- Character encoding of one 6-bit group. -/
def encChar (n : Nat) : Char := b64Chars.getD n '?'

/-- Base64 encoding of a byte list, with `=` padding; embeds
`base64::encode`. -/
def b64Encode : List Nat → List Char
  | [] => []
  | [a] => [encChar (a / 4), encChar (a % 4 * 16), '=', '=']
  | [a, b] => [encChar (a / 4), encChar (a % 4 * 16 + b / 16),
      encChar (b % 16 * 4), '=']
  | a :: b :: c :: rest =>
    encChar (a / 4) :: encChar (a % 4 * 16 + b / 16) ::
      encChar (b % 16 * 4 + c / 64) :: encChar (c % 64) :: b64Encode rest

/-- Value of one base64 character, scanning the alphabet. -/
def decCharAux : List Char → Nat → Char → Option Nat
  | [], _, _ => none
  | c :: rest, i, ch => if ch = c then some i else decCharAux rest (i + 1) ch

/-- Value of one base64 character. -/
def decChar (ch : Char) : Option Nat := decCharAux b64Chars 0 ch

/-- Base64 decoding of a character list; embeds `base64::decode`. -/
def b64Decode : List Char → Option (List Nat)
  | [] => some []
  | c0 :: c1 :: c2 :: c3 :: rest =>
    match decChar c0, decChar c1 with
    | some n0, some n1 =>
      if c2 = '=' then
        if c3 = '=' ∧ rest = [] then some [n0 * 4 + n1 / 16] else none
      else
        match decChar c2 with
        | some n2 =>
          if c3 = '=' then
            if rest = [] then some [n0 * 4 + n1 / 16, n1 % 16 * 16 + n2 / 4]
            else none
          else
            match decChar c3 with
            | some n3 =>
              (b64Decode rest).map (fun tail =>
                (n0 * 4 + n1 / 16) :: (n1 % 16 * 16 + n2 / 4) ::
                  (n2 % 4 * 64 + n3) :: tail)
            | none => none
        | none => none
    | _, _ => none
  | _ => none

/-- Base64 rendering of a fingerprint; embeds
`CertificateFingerprint::to_base64`. -/
def CertificateFingerprint.toBase64 (f : CertificateFingerprint) :
    List Char :=
  b64Encode f.bytes

/-- Display rendering of a fingerprint; the source `fmt::Display` impl
forwards to `to_base64`. -/
def CertificateFingerprint.display (f : CertificateFingerprint) :
    List Char :=
  f.toBase64

/-- Fingerprint of a DER certificate; embeds
`From<&rustls::Certificate> for CertificateFingerprint`, where the source
computes the SHA-256 digest and then `try_into().unwrap()`s it into a
`[u8; 32]`.  The `Option` models the fallible `try_into`. -/
def CertificateFingerprint.fromCert (der : List Nat) :
    Option CertificateFingerprint :=
  let digest := sha256 der
  if h : ValidBytes32 digest then some ⟨digest, h⟩ else none

/-- Client identifier; embeds `pub struct ClientId(pub u64)`. -/
structure ClientId where
  id : Nat
deriving DecidableEq

/-- Default capacity of a message queue; embeds
`DEFAULT_MESSAGE_QUEUE_SIZE`. -/
def DEFAULT_MESSAGE_QUEUE_SIZE : Nat := 150

/-- Default capacity of a kill-message queue; embeds
`DEFAULT_KILL_MESSAGE_QUEUE_SIZE`. -/
def DEFAULT_KILL_MESSAGE_QUEUE_SIZE : Nat := 10

/-- Errors of Bevy Quinnet; embeds `enum QuinnetError`.  Payloads whose
types live in external crates (addresses, io, rustls, base64 errors …)
are elided; the variants themselves are all present. -/
inductive QuinnetError where
  | InvalidAddress
  | CertificateGenerationFailed
  | UnknownClient (client : ClientId)
  | ClientAlreadyDisconnected (client : ClientId)
  | UnknownConnection (connection : Nat)
  | ConnectionClosed
  | ConnectionAlreadyClosed
  | UnknownChannel (channel : Nat)
  | ChannelAlreadyClosed
  | NoDefaultChannel
  | EndpointAlreadyClosed
  | Serialization
  | Deserialization
  | FullQueue
  | InternalChannelClosed
  | InvalidHostFile
  | LockAcquisitionFailure
  | CertificateActionAlreadyApplied
  | IoError
  | RustlsError
  | InvalidDnsName
  | FingerprintDecode
  | CreateHostsFile
  | LoadHostsFile
  | ClientConfigure
  | EndpointCreation
  | ConnectConfigure
  | Connect
  | SignalConnectionToClient
  | SignalConnectionLostToClient
deriving DecidableEq

/-- A poisoned-lock error, carrying the guarded data; embeds
`std::sync::PoisonError<T>`. -/
structure PoisonError (T : Type) where
  guardData : T

/-- Conversion of a poisoned-lock error; embeds
`impl<T> From<PoisonError<T>> for QuinnetError`. -/
def QuinnetError.fromPoisonError {T : Type} (_ : PoisonError T) :
    QuinnetError :=
  QuinnetError.LockAcquisitionFailure

/-- The in-memory known-hosts mapping: server name to last trusted
fingerprint, at most one entry per name. -/
abbrev KnownHosts : Type := List (List Char × CertificateFingerprint)

/-- Fingerprint stored for a server name, if any. -/
def lookupHost : KnownHosts → List Char → Option CertificateFingerprint
  | [], _ => none
  | e :: rest, n => if e.1 = n then some e.2 else lookupHost rest n

/-- Insert or update the fingerprint stored for a server name
(overwrite, never a duplicate key). -/
def insertHost : KnownHosts → List Char → CertificateFingerprint →
    KnownHosts
  | [], n, f => [(n, f)]
  | e :: rest, n, f =>
    if e.1 = n then (n, f) :: rest else e :: insertHost rest n f

/-- Split a character list on a separator character. -/
def splitOnChar (sep : Char) : List Char → List (List Char)
  | [] => [[]]
  | c :: rest =>
    match splitOnChar sep rest with
    | [] => if c = sep then [[], []] else [[c]]
    | x :: xs => if c = sep then [] :: x :: xs else (c :: x) :: xs

/-- Join character lists with a separator character. -/
def joinWith (sep : Char) : List (List Char) → List Char
  | [] => []
  | [x] => x
  | x :: y :: rest => x ++ sep :: joinWith sep (y :: rest)

/-- Modelled from the spec: `save(path, mapping)` for the known-hosts
store is absent from src/; per §4.1 and §6 it writes one
`server_name base64fingerprint` line per entry.  The file content is
returned as a character list. -/
def knownHostsSave (store : KnownHosts) : List Char :=
  joinWith '\n' (store.map (fun e => e.1 ++ ' ' :: b64Encode e.2.bytes))

/-- Modelled from the spec: one line of `load`; a line that is not
`name fingerprint` is a fatal `InvalidHostFile` error, a fingerprint
that does not decode from base64 is a `FingerprintDecode` error. -/
def parseHostLine (line : List Char) :
    Except QuinnetError (List Char × CertificateFingerprint) :=
  match splitOnChar ' ' line with
  | [name, b64] =>
    match b64Decode b64 with
    | some bytes =>
      if h : ValidBytes32 bytes then Except.ok (name, ⟨bytes, h⟩)
      else Except.error QuinnetError.InvalidHostFile
    | none => Except.error QuinnetError.FingerprintDecode
  | _ => Except.error QuinnetError.InvalidHostFile

/-- Parse every line of a hosts file; the first error is fatal. -/
def parseHostLines : List (List Char) → Except QuinnetError KnownHosts
  | [] => Except.ok []
  | l :: rest =>
    match parseHostLine l, parseHostLines rest with
    | Except.ok e, Except.ok s => Except.ok (e :: s)
    | Except.error err, _ => Except.error err
    | _, Except.error err => Except.error err

/-- Modelled from the spec: `load(path) -> mapping` for the known-hosts
store is absent from src/; per §4.1 and §6 it parses one entry per line
and fails on any malformed line.  Empty content is the empty store. -/
def knownHostsLoad (content : List Char) :
    Except QuinnetError KnownHosts :=
  if content = [] then Except.ok []
  else parseHostLines (splitOnChar '\n' content)

/-- Modelled from the spec: the per-status actions of a TrustOnFirstUse
policy (§3): trust-and-store, trust-without-storing, ask-frontend,
abort. -/
inductive CertVerifierAction where
  | trustAndStore
  | trustWithoutStoring
  | askFrontend
  | abortConnection
deriving DecidableEq

/-- Modelled from the spec: classification of a presented certificate
against the store (§4.2). -/
inductive CertVerificationStatus where
  | unknownCertificate
  | trustedCertificate
  | untrustedCertificate
deriving DecidableEq

/-- Modelled from the spec: the TrustOnFirstUse policy record of three
independently-configurable actions (§3). -/
structure TrustOnFirstUseConfig where
  onUnknown : CertVerifierAction
  onTrusted : CertVerifierAction
  onUntrusted : CertVerifierAction
deriving DecidableEq

/-- Modelled from the spec: snapshot passed to the frontend on an
ask-frontend outcome (§3): server name, presented fingerprint, known
fingerprint if any. -/
structure CertificateInfo where
  serverName : List Char
  fingerprint : CertificateFingerprint
  knownFingerprint : Option CertificateFingerprint
deriving DecidableEq

/-- Modelled from the spec: the event emitted through the Trust
Interaction Channel on an ask-frontend outcome, carrying the
certificate info, the status and a unique interaction id (§4.2). -/
structure CertificateInteractionEvent where
  interactionId : Nat
  certInfo : CertificateInfo
  status : CertVerificationStatus
deriving DecidableEq

/-- Modelled from the spec: outcome of one verification attempt (§4.2):
accepted, rejected, or awaiting a frontend decision. -/
inductive CertVerificationResult where
  | accepted
  | rejected
  | awaitingDecision (ev : CertificateInteractionEvent)

/-- Result, emitted interaction events, and resulting store of one
verifier step. -/
structure VerifOutcome where
  result : CertVerificationResult
  events : List CertificateInteractionEvent
  store : KnownHosts

/-- Modelled from the spec: apply one configured action (§4.2):
trust-and-store persists and accepts, trust-without-storing accepts with
the store unchanged, abort rejects, ask-frontend emits one interaction
event and suspends. -/
def applyAction (action : CertVerifierAction) (store : KnownHosts)
    (name : List Char) (fp : CertificateFingerprint)
    (knownFp : Option CertificateFingerprint)
    (status : CertVerificationStatus) (interactionId : Nat) :
    VerifOutcome :=
  match action with
  | CertVerifierAction.trustAndStore =>
    ⟨CertVerificationResult.accepted, [], insertHost store name fp⟩
  | CertVerifierAction.trustWithoutStoring =>
    ⟨CertVerificationResult.accepted, [], store⟩
  | CertVerifierAction.abortConnection =>
    ⟨CertVerificationResult.rejected, [], store⟩
  | CertVerifierAction.askFrontend =>
    let ev : CertificateInteractionEvent :=
      ⟨interactionId, ⟨name, fp, knownFp⟩, status⟩
    ⟨CertVerificationResult.awaitingDecision ev, [ev], store⟩

/-- Modelled from the spec: TrustOnFirstUse classification (§4.2, step
3): Unknown when the name is absent from the store, Trusted when the
stored fingerprint matches, Untrusted when it differs. -/
def tofuStatus (store : KnownHosts) (name : List Char)
    (fp : CertificateFingerprint) : CertVerificationStatus :=
  match lookupHost store name with
  | none => CertVerificationStatus.unknownCertificate
  | some known =>
    if known.bytes = fp.bytes then CertVerificationStatus.trustedCertificate
    else CertVerificationStatus.untrustedCertificate

/-- Modelled from the spec: one TrustOnFirstUse verification attempt
(§4.2): classify against the store, then apply the action the policy
configures for that status. -/
def verifyTofu (cfg : TrustOnFirstUseConfig) (store : KnownHosts)
    (name : List Char) (fp : CertificateFingerprint)
    (interactionId : Nat) : VerifOutcome :=
  let knownFp := lookupHost store name
  let status := tofuStatus store name fp
  let action :=
    match status with
    | CertVerificationStatus.unknownCertificate => cfg.onUnknown
    | CertVerificationStatus.trustedCertificate => cfg.onTrusted
    | CertVerificationStatus.untrustedCertificate => cfg.onUntrusted
  applyAction action store name fp knownFp status interactionId

/-- Modelled from the spec: a frontend decision is exactly one of
trust-and-store, trust-without-storing, abort (§4.2). -/
inductive CertDecision where
  | trustAndStore
  | trustWithoutStoring
  | abortConnection
deriving DecidableEq

/-- Modelled from the spec: applying a frontend decision to a suspended
verification (§4.2), returning the result and the resulting store. -/
def applyDecision (d : CertDecision) (store : KnownHosts)
    (name : List Char) (fp : CertificateFingerprint) :
    CertVerificationResult × KnownHosts :=
  match d with
  | CertDecision.trustAndStore =>
    (CertVerificationResult.accepted, insertHost store name fp)
  | CertDecision.trustWithoutStoring =>
    (CertVerificationResult.accepted, store)
  | CertDecision.abortConnection =>
    (CertVerificationResult.rejected, store)

/-- Modelled from the spec: connection lifecycle states (§3). -/
inductive ConnectionState where
  | connecting
  | connected
  | disconnected
deriving DecidableEq

/-- Modelled from the spec: state the connection moves to once the
handshake's certificate verification resolves (§3): accepted completes
the handshake, rejected (trust abort) moves Connecting directly to
Disconnected, awaiting keeps it Connecting. -/
def connectionStateAfter : CertVerificationResult → ConnectionState
  | CertVerificationResult.accepted => ConnectionState.connected
  | CertVerificationResult.rejected => ConnectionState.disconnected
  | CertVerificationResult.awaitingDecision _ => ConnectionState.connecting

/-- Modelled from the spec: verifier-side bookkeeping of which
interaction ids have already had a decision applied (§4.2). -/
structure TofuVerifier where
  store : KnownHosts
  appliedIds : List Nat

/-- Modelled from the spec: submit a decision for an interaction id
(§4.2).  The first submission for an id is applied; any later submission
for the same id is refused with `CertificateActionAlreadyApplied` and
changes nothing. -/
def applyInteractionDecision (v : TofuVerifier) (interactionId : Nat)
    (d : CertDecision) (name : List Char)
    (fp : CertificateFingerprint) :
    Except QuinnetError (TofuVerifier × CertVerificationResult) :=
  if interactionId ∈ v.appliedIds then
    Except.error QuinnetError.CertificateActionAlreadyApplied
  else
    let rs := applyDecision d v.store name fp
    Except.ok (⟨rs.2, interactionId :: v.appliedIds⟩, rs.1)

/-- Modelled from the spec: one logical channel's bounded outbound queue
(§4.4): a capacity and the queued payloads. -/
structure ChannelQueue where
  capacity : Nat
  messages : List (List Nat)
deriving DecidableEq

/-- Modelled from the spec: `send(channel_id, bytes)` on the channel's
bounded outbound queue (§4.4): enqueue when there is room, otherwise
fail synchronously with `FullQueue` and leave the queue as it was. -/
def trySend (q : ChannelQueue) (payload : List Nat) :
    ChannelQueue × Option QuinnetError :=
  if q.messages.length < q.capacity then
    (⟨q.capacity, q.messages ++ [payload]⟩, none)
  else
    (q, some QuinnetError.FullQueue)

/-! Helper lemmas. -/

theorem toBytesBE_length (k : Nat) : ∀ n, (toBytesBE k n).length = k := by
  induction k with
  | zero => intro n; rfl
  | succ k ih => intro n; simp [toBytesBE, ih]

theorem toBytesBE_lt (k : Nat) :
    ∀ n, ∀ b ∈ toBytesBE k n, b < 256 := by
  induction k with
  | zero => intro n b hb; simp [toBytesBE] at hb
  | succ k ih =>
    intro n b hb
    simp only [toBytesBE, List.mem_append, List.mem_singleton] at hb
    rcases hb with hb | hb
    · exact ih _ b hb
    · subst hb; exact Nat.mod_lt _ (by omega)

theorem sha256_length (msg : List Nat) : (sha256 msg).length = 32 := by
  simp [sha256, digestBytes, toBytesBE_length]

theorem sha256_lt (msg : List Nat) : ∀ b ∈ sha256 msg, b < 256 := by
  intro b hb
  simp only [sha256, digestBytes, List.mem_append] at hb
  rcases hb with ((((((h | h) | h) | h) | h) | h) | h) | h <;>
    exact toBytesBE_lt 4 _ b h

theorem validBytes32_sha256 (msg : List Nat) :
    ValidBytes32 (sha256 msg) :=
  ⟨sha256_length msg, sha256_lt msg⟩

theorem CertificateFingerprint.ext_bytes :
    ∀ {a b : CertificateFingerprint}, a.bytes = b.bytes → a = b := by
  intro a b h
  cases a; cases b
  simp only [CertificateFingerprint.mk.injEq]
  exact h

theorem decChar_encChar : ∀ n, n < 64 → decChar (encChar n) = some n := by
  decide

theorem encChar_not_special :
    ∀ n, n < 64 → encChar n ≠ '=' ∧ encChar n ≠ ' ' ∧ encChar n ≠ '\n' := by
  decide

theorem b64Decode_b64Encode :
    ∀ l : List Nat, (∀ b ∈ l, b < 256) → b64Decode (b64Encode l) = some l
  | [], _ => rfl
  | [a], h => by
    have ha : a < 256 := h a (by simp)
    have h0 : a / 4 < 64 := by omega
    have h1 : a % 4 * 16 < 64 := by omega
    simp [b64Encode, b64Decode, decChar_encChar _ h0, decChar_encChar _ h1]
    omega
  | [a, b], h => by
    have ha : a < 256 := h a (by simp)
    have hb : b < 256 := h b (by simp)
    have h0 : a / 4 < 64 := by omega
    have h1 : a % 4 * 16 + b / 16 < 64 := by omega
    have h2 : b % 16 * 4 < 64 := by omega
    simp [b64Encode, b64Decode, decChar_encChar _ h0, decChar_encChar _ h1,
      decChar_encChar _ h2, (encChar_not_special _ h2).1]
    omega
  | [a, b, c], h => by
    have ha : a < 256 := h a (by simp)
    have hb : b < 256 := h b (by simp)
    have hc : c < 256 := h c (by simp)
    have h0 : a / 4 < 64 := by omega
    have h1 : a % 4 * 16 + b / 16 < 64 := by omega
    have h2 : b % 16 * 4 + c / 64 < 64 := by omega
    have h3 : c % 64 < 64 := by omega
    simp [b64Encode, b64Decode, decChar_encChar _ h0, decChar_encChar _ h1,
      decChar_encChar _ h2, decChar_encChar _ h3,
      (encChar_not_special _ h2).1, (encChar_not_special _ h3).1]
    omega
  | a :: b :: c :: d :: rest, h => by
    have ha : a < 256 := h a (by simp)
    have hb : b < 256 := h b (by simp)
    have hc : c < 256 := h c (by simp)
    have h0 : a / 4 < 64 := by omega
    have h1 : a % 4 * 16 + b / 16 < 64 := by omega
    have h2 : b % 16 * 4 + c / 64 < 64 := by omega
    have h3 : c % 64 < 64 := by omega
    have ih : b64Decode (b64Encode (d :: rest)) = some (d :: rest) :=
      b64Decode_b64Encode (d :: rest) (fun x hx => h x (by simp [hx]))
    simp [b64Encode, b64Decode, decChar_encChar _ h0, decChar_encChar _ h1,
      decChar_encChar _ h2, decChar_encChar _ h3,
      (encChar_not_special _ h2).1, (encChar_not_special _ h3).1, ih]
    omega

theorem b64Encode_mem_safe :
    ∀ l : List Nat, (∀ b ∈ l, b < 256) →
      ∀ ch ∈ b64Encode l, ch ≠ ' ' ∧ ch ≠ '\n'
  | [], _ => by simp [b64Encode]
  | [a], h => by
    have ha : a < 256 := h a (by simp)
    have h0 : a / 4 < 64 := by omega
    have h1 : a % 4 * 16 < 64 := by omega
    intro ch hch
    simp [b64Encode] at hch
    rcases hch with hch | hch | hch <;> subst hch
    · exact (encChar_not_special _ h0).2
    · exact (encChar_not_special _ h1).2
    · exact (by decide)
  | [a, b], h => by
    have ha : a < 256 := h a (by simp)
    have hb : b < 256 := h b (by simp)
    have h0 : a / 4 < 64 := by omega
    have h1 : a % 4 * 16 + b / 16 < 64 := by omega
    have h2 : b % 16 * 4 < 64 := by omega
    intro ch hch
    simp [b64Encode] at hch
    rcases hch with hch | hch | hch | hch <;> subst hch
    · exact (encChar_not_special _ h0).2
    · exact (encChar_not_special _ h1).2
    · exact (encChar_not_special _ h2).2
    · exact (by decide)
  | [a, b, c], h => by
    have ha : a < 256 := h a (by simp)
    have hb : b < 256 := h b (by simp)
    have hc : c < 256 := h c (by simp)
    have h0 : a / 4 < 64 := by omega
    have h1 : a % 4 * 16 + b / 16 < 64 := by omega
    have h2 : b % 16 * 4 + c / 64 < 64 := by omega
    have h3 : c % 64 < 64 := by omega
    intro ch hch
    simp [b64Encode] at hch
    rcases hch with hch | hch | hch | hch <;> subst hch
    · exact (encChar_not_special _ h0).2
    · exact (encChar_not_special _ h1).2
    · exact (encChar_not_special _ h2).2
    · exact (encChar_not_special _ h3).2
  | a :: b :: c :: d :: rest, h => by
    have ha : a < 256 := h a (by simp)
    have hb : b < 256 := h b (by simp)
    have hc : c < 256 := h c (by simp)
    have h0 : a / 4 < 64 := by omega
    have h1 : a % 4 * 16 + b / 16 < 64 := by omega
    have h2 : b % 16 * 4 + c / 64 < 64 := by omega
    have h3 : c % 64 < 64 := by omega
    have ih := b64Encode_mem_safe (d :: rest)
      (fun x hx => h x (by simp [hx]))
    intro ch hch
    simp [b64Encode] at hch
    rcases hch with hch | hch | hch | hch | hch
    · subst hch; exact (encChar_not_special _ h0).2
    · subst hch; exact (encChar_not_special _ h1).2
    · subst hch; exact (encChar_not_special _ h2).2
    · subst hch; exact (encChar_not_special _ h3).2
    · exact ih ch hch

theorem splitOnChar_ne_nil (sep : Char) :
    ∀ l : List Char, splitOnChar sep l ≠ [] := by
  intro l
  cases l with
  | nil => simp [splitOnChar]
  | cons c rest =>
    simp only [splitOnChar]
    rcases splitOnChar sep rest with _ | ⟨x, xs⟩ <;>
      by_cases hc : c = sep <;> simp [hc]

theorem splitOnChar_no_sep (sep : Char) :
    ∀ x : List Char, sep ∉ x → splitOnChar sep x = [x]
  | [], _ => rfl
  | c :: rest, h => by
    have hc : ¬c = sep := fun e => h (by simp [e])
    have ih := splitOnChar_no_sep sep rest (fun m => h (by simp [m]))
    simp [splitOnChar, ih, hc]

theorem splitOnChar_append (sep : Char) :
    ∀ x r : List Char, sep ∉ x →
      splitOnChar sep (x ++ sep :: r) = x :: splitOnChar sep r
  | [], r, _ => by
    simp only [List.nil_append, splitOnChar]
    cases hs : splitOnChar sep r with
    | nil => exact absurd hs (splitOnChar_ne_nil sep r)
    | cons y ys => simp
  | c :: x, r, h => by
    have hc : ¬c = sep := fun e => h (by simp [e])
    have ih := splitOnChar_append sep x r (fun m => h (by simp [m]))
    simp only [List.cons_append, splitOnChar, List.append_eq]
    rw [ih]
    simp [hc]

theorem splitOnChar_joinWith (sep : Char) :
    ∀ xss : List (List Char), xss ≠ [] → (∀ xs ∈ xss, sep ∉ xs) →
      splitOnChar sep (joinWith sep xss) = xss
  | [], hne, _ => absurd rfl hne
  | [x], _, h => splitOnChar_no_sep sep x (h x (by simp))
  | x :: y :: rest, _, h => by
    have ih := splitOnChar_joinWith sep (y :: rest) (by simp)
      (fun xs m => h xs (by simp at m ⊢; tauto))
    simp only [joinWith]
    rw [splitOnChar_append sep x _ (h x (by simp)), ih]

theorem parseHostLine_entry (name : List Char)
    (fp : CertificateFingerprint) (hs : ' ' ∉ name) :
    parseHostLine (name ++ ' ' :: b64Encode fp.bytes) =
      Except.ok (name, fp) := by
  have hspace : ' ' ∉ b64Encode fp.bytes := fun hm =>
    (b64Encode_mem_safe _ fp.valid.2 ' ' hm).1 rfl
  unfold parseHostLine
  rw [splitOnChar_append ' ' name _ hs, splitOnChar_no_sep ' ' _ hspace]
  simp only [b64Decode_b64Encode fp.bytes fp.valid.2]
  rw [dif_pos fp.valid]

theorem parseHostLines_entries :
    ∀ s : KnownHosts, (∀ e ∈ s, ' ' ∉ e.1) →
      parseHostLines
        (s.map (fun e => e.1 ++ ' ' :: b64Encode e.2.bytes)) =
        Except.ok s
  | [], _ => rfl
  | e :: rest, h => by
    have ih := parseHostLines_entries rest (fun x m => h x (by simp [m]))
    simp only [List.map_cons, parseHostLines,
      parseHostLine_entry e.1 e.2 (h e (by simp)), ih]

theorem joinWith_head_ne_nil (sep : Char) (x : List Char)
    (xs : List (List Char)) (hx : x ≠ []) : joinWith sep (x :: xs) ≠ [] := by
  cases xs <;> simp [joinWith, hx]

theorem lookupHost_insertHost (store : KnownHosts) (name : List Char)
    (fp : CertificateFingerprint) :
    lookupHost (insertHost store name fp) name = some fp := by
  induction store with
  | nil => simp [insertHost, lookupHost]
  | cons e rest ih =>
    by_cases he : e.1 = name
    · simp [insertHost, he, lookupHost]
    · simp [insertHost, he, lookupHost, ih]

/-! Claim theorems. -/

/-- C3: fingerprint computation is pure and deterministic: the same
certificate bytes always yield the same fingerprint, which is the
SHA-256 digest of the certificate's DER encoding and depends on nothing
but the input bytes. -/
theorem c3_fingerprint_pure (c1 c2 : List Nat) (h : c1 = c2) :
    CertificateFingerprint.fromCert c1 = CertificateFingerprint.fromCert c2 ∧
    ∀ f, CertificateFingerprint.fromCert c1 = some f →
      f.bytes = sha256 c1 := by
  subst h
  refine ⟨rfl, fun f hf => ?_⟩
  simp only [CertificateFingerprint.fromCert] at hf
  rw [dif_pos (validBytes32_sha256 c1)] at hf
  cases hf
  rfl

/-- C3 witness: purity instantiated at the empty certificate. -/
theorem c3_fingerprint_pure_witness :
    CertificateFingerprint.fromCert [] = CertificateFingerprint.fromCert [] :=
  (c3_fingerprint_pure [] [] rfl).1

/-- C9: converting the SHA-256 digest into the fixed 32-byte array never
fails: the digest always has exactly 32 bytes, so the `unwrap` on the
`try_into` conversion is unreachable. -/
theorem c9_fromCert_total (der : List Nat) :
    (CertificateFingerprint.fromCert der).isSome = true := by
  simp only [CertificateFingerprint.fromCert]
  rw [dif_pos (validBytes32_sha256 der)]
  rfl

/-- C10: the textual rendering of fingerprints is faithful: two
fingerprints render to the same base64 string exactly when they are
equal, and `Display` renders exactly the `to_base64` string. -/
theorem c10_toBase64_faithful (a b : CertificateFingerprint) :
    (a.toBase64 = b.toBase64 ↔ a = b) ∧ a.display = a.toBase64 := by
  refine ⟨⟨fun h => ?_, fun h => by rw [h]⟩, rfl⟩
  apply CertificateFingerprint.ext_bytes
  have ha := b64Decode_b64Encode a.bytes a.valid.2
  have hb := b64Decode_b64Encode b.bytes b.valid.2
  unfold CertificateFingerprint.toBase64 at h
  rw [h, hb] at ha
  exact (Option.some.inj ha).symm

/-- C4 counterexample: the source derives equality but no ordering for
`CertificateFingerprint` (`#[derive(Debug, Clone, Eq, PartialEq)]`), so
the claimed byte-value order `a ≤ b` does not exist on the type. -/
theorem c4_no_order_counterexample :
    "Ord" ∉ certificateFingerprintDerives ∧
    "PartialOrd" ∉ certificateFingerprintDerives ∧
    "Eq" ∈ certificateFingerprintDerives ∧
    "PartialEq" ∈ certificateFingerprintDerives := by
  decide

/-- C4 (amended): the Fingerprint type is a 32-byte value supporting
equality — two fingerprints are equal exactly when their 32-byte
contents are equal; the source derives no order on the type. -/
theorem c4_fingerprint_eq_bytes (a b : CertificateFingerprint) :
    (a = b ↔ a.bytes = b.bytes) ∧ a.bytes.length = 32 :=
  ⟨⟨fun h => by rw [h], CertificateFingerprint.ext_bytes⟩, a.valid.1⟩

/-- C8: every poisoned-lock error converts to exactly the dedicated
lock-acquisition-failure error variant. -/
theorem c8_poison_to_lock_failure {T : Type} (e : PoisonError T) :
    QuinnetError.fromPoisonError e =
      QuinnetError.LockAcquisitionFailure :=
  rfl

/-- C5: save followed by load reproduces the identical known-hosts
mapping — the same server-name keys bound to the same fingerprint
bytes — for every entry order used while saving (the entry list is
arbitrary), provided server names contain no separator characters. -/
theorem c5_save_load_roundtrip (store : KnownHosts)
    (h : ∀ e ∈ store, ' ' ∉ e.1 ∧ '\n' ∉ e.1) :
    knownHostsLoad (knownHostsSave store) = Except.ok store := by
  cases store with
  | nil => rfl
  | cons e rest =>
    have hnospace : ∀ x ∈ e :: rest, ' ' ∉ x.1 := fun x m => (h x m).1
    have hlines : ∀ l ∈ (e :: rest).map
        (fun x => x.1 ++ ' ' :: b64Encode x.2.bytes), '\n' ∉ l := by
      intro l hl
      simp only [List.mem_map] at hl
      obtain ⟨x, hx, rfl⟩ := hl
      intro hm
      simp only [List.mem_append, List.mem_cons] at hm
      rcases hm with hm | hm | hm
      · exact (h x hx).2 hm
      · exact absurd hm (by decide)
      · exact (b64Encode_mem_safe _ x.2.valid.2 '\n' hm).2 rfl
    have hcontent : knownHostsSave (e :: rest) ≠ [] := by
      unfold knownHostsSave
      simp only [List.map_cons]
      exact joinWith_head_ne_nil '\n' _ _ (by simp)
    unfold knownHostsLoad
    rw [if_neg hcontent]
    unfold knownHostsSave
    rw [splitOnChar_joinWith '\n' _ (by simp) hlines]
    exact parseHostLines_entries (e :: rest) hnospace

/-- C5 witness: the round trip instantiated at a concrete two-entry
store. -/
theorem c5_save_load_roundtrip_witness :
    knownHostsLoad (knownHostsSave
      [(['a'], zeroFingerprint), (['b'], oneFingerprint)]) =
      Except.ok [(['a'], zeroFingerprint), (['b'], oneFingerprint)] :=
  c5_save_load_roundtrip
    [(['a'], zeroFingerprint), (['b'], oneFingerprint)] (by decide)

/-- C6: sending on a channel whose bounded outbound queue is at capacity
returns the full-queue error synchronously with the queue contents
exactly as they were before the call. -/
theorem c6_full_queue (q : ChannelQueue) (payload : List Nat)
    (h : q.messages.length = q.capacity) :
    trySend q payload = (q, some QuinnetError.FullQueue) := by
  unfold trySend
  rw [if_neg (by omega)]

/-- C6 witness: a queue of capacity two holding two messages rejects a
third send and is unchanged. -/
theorem c6_full_queue_witness :
    (ChannelQueue.mk 2 [[1], [2]]).messages.length =
      (ChannelQueue.mk 2 [[1], [2]]).capacity ∧
    trySend (ChannelQueue.mk 2 [[1], [2]]) [3] =
      (ChannelQueue.mk 2 [[1], [2]], some QuinnetError.FullQueue) :=
  ⟨rfl, c6_full_queue (ChannelQueue.mk 2 [[1], [2]]) [3] rfl⟩

/-- C7: the verifier applies at most one decision per interaction id:
the first submitted decision for an id takes effect and records the id,
and any second submission for the same id is refused with
`CertificateActionAlreadyApplied`. -/
theorem c7_decision_applied_once (v : TofuVerifier) (interactionId : Nat)
    (d d2 : CertDecision) (name name2 : List Char)
    (fp fp2 : CertificateFingerprint)
    (h : interactionId ∉ v.appliedIds) :
    ∃ v' res,
      applyInteractionDecision v interactionId d name fp =
        Except.ok (v', res) ∧
      v'.appliedIds = interactionId :: v.appliedIds ∧
      applyInteractionDecision v' interactionId d2 name2 fp2 =
        Except.error QuinnetError.CertificateActionAlreadyApplied := by
  refine ⟨⟨(applyDecision d v.store name fp).2,
    interactionId :: v.appliedIds⟩,
    (applyDecision d v.store name fp).1, ?_, rfl, ?_⟩
  · unfold applyInteractionDecision
    rw [if_neg h]
  · unfold applyInteractionDecision
    rw [if_pos (by simp)]

/-- C7 witness: the double-submission refusal instantiated at a fresh
verifier and interaction id five. -/
theorem c7_decision_applied_once_witness :
    (5 ∉ (TofuVerifier.mk [] []).appliedIds) ∧
    ∃ v' res,
      applyInteractionDecision (TofuVerifier.mk [] []) 5
        CertDecision.trustAndStore ['s'] zeroFingerprint =
        Except.ok (v', res) ∧
      v'.appliedIds = 5 :: (TofuVerifier.mk [] []).appliedIds ∧
      applyInteractionDecision v' 5 CertDecision.abortConnection ['s']
        zeroFingerprint =
        Except.error QuinnetError.CertificateActionAlreadyApplied :=
  ⟨by decide, c7_decision_applied_once (TofuVerifier.mk [] []) 5
    CertDecision.trustAndStore CertDecision.abortConnection ['s'] ['s']
    zeroFingerprint zeroFingerprint (by decide)⟩

/-- C2: when the store holds fingerprint F1 for name N and the handshake
presents F2 ≠ F1, classification is Untrusted; applying the abort
decision rejects, leaves the store exactly as it was (still mapping N to
F1), and the connection resolves to Disconnected. -/
theorem c2_untrusted_abort (store : KnownHosts) (name : List Char)
    (f1 f2 : CertificateFingerprint)
    (h1 : lookupHost store name = some f1) (hne : f2 ≠ f1) :
    tofuStatus store name f2 =
      CertVerificationStatus.untrustedCertificate ∧
    applyDecision CertDecision.abortConnection store name f2 =
      (CertVerificationResult.rejected, store) ∧
    lookupHost
      (applyDecision CertDecision.abortConnection store name f2).2 name =
      some f1 ∧
    connectionStateAfter CertVerificationResult.rejected =
      ConnectionState.disconnected := by
  have hb : ¬f1.bytes = f2.bytes := fun e =>
    hne (CertificateFingerprint.ext_bytes e).symm
  refine ⟨?_, rfl, by simpa [applyDecision] using h1, rfl⟩
  simp [tofuStatus, h1, hb]

/-- C2 witness: the mismatch-and-abort behaviour at a one-entry store
holding the zero fingerprint while the one fingerprint is presented. -/
theorem c2_untrusted_abort_witness :
    (lookupHost [(['s'], zeroFingerprint)] ['s'] = some zeroFingerprint ∧
     oneFingerprint ≠ zeroFingerprint) ∧
    (tofuStatus [(['s'], zeroFingerprint)] ['s'] oneFingerprint =
      CertVerificationStatus.untrustedCertificate ∧
    applyDecision CertDecision.abortConnection [(['s'], zeroFingerprint)]
      ['s'] oneFingerprint =
      (CertVerificationResult.rejected, [(['s'], zeroFingerprint)]) ∧
    lookupHost (applyDecision CertDecision.abortConnection
      [(['s'], zeroFingerprint)] ['s'] oneFingerprint).2 ['s'] =
      some zeroFingerprint ∧
    connectionStateAfter CertVerificationResult.rejected =
      ConnectionState.disconnected) :=
  ⟨⟨by decide, by decide⟩,
    c2_untrusted_abort [(['s'], zeroFingerprint)] ['s'] zeroFingerprint
      oneFingerprint (by decide) (by decide)⟩

/-- C1 counterexample: with every configured action set to ask-frontend
(a policy the claim quantifies over, since it fixes only `on_unknown`),
the first verification of an unknown certificate prompts once with no
known fingerprint and the trust-and-store decision makes a later
verification classify as Trusted — yet that later verification prompts
again, contradicting the claimed "emits no further prompt". -/
theorem c1_counterexample :
    lookupHost [] ['s'] = none ∧
    (verifyTofu
      ⟨CertVerifierAction.askFrontend, CertVerifierAction.askFrontend,
        CertVerifierAction.askFrontend⟩ [] ['s'] zeroFingerprint 0).events =
      [⟨0, ⟨['s'], zeroFingerprint, none⟩,
        CertVerificationStatus.unknownCertificate⟩] ∧
    tofuStatus
      (applyDecision CertDecision.trustAndStore [] ['s'] zeroFingerprint).2
      ['s'] zeroFingerprint =
      CertVerificationStatus.trustedCertificate ∧
    (verifyTofu
      ⟨CertVerifierAction.askFrontend, CertVerifierAction.askFrontend,
        CertVerifierAction.askFrontend⟩
      (applyDecision CertDecision.trustAndStore [] ['s'] zeroFingerprint).2
      ['s'] zeroFingerprint 1).events.length = 1 := by
  refine ⟨rfl, ?_, ?_, ?_⟩ <;> decide

/-- C1 (amended): for a server name absent from the store, verification
under TrustOnFirstUse with `on_unknown = ask-frontend` emits exactly one
interaction event with no known fingerprint; after the trust-and-store
decision, a subsequent verification of the same fingerprint for the same
name classifies as Trusted and — provided the configured `on_trusted`
action is not ask-frontend — emits no further prompt. -/
theorem c1_tofu_first_use (cfg : TrustOnFirstUseConfig)
    (store : KnownHosts) (name : List Char)
    (fp : CertificateFingerprint) (id1 id2 : Nat)
    (hnone : lookupHost store name = none)
    (hask : cfg.onUnknown = CertVerifierAction.askFrontend)
    (htrusted : cfg.onTrusted ≠ CertVerifierAction.askFrontend) :
    (verifyTofu cfg store name fp id1).events =
      [⟨id1, ⟨name, fp, none⟩,
        CertVerificationStatus.unknownCertificate⟩] ∧
    tofuStatus (applyDecision CertDecision.trustAndStore store name fp).2
      name fp = CertVerificationStatus.trustedCertificate ∧
    (verifyTofu cfg
      (applyDecision CertDecision.trustAndStore store name fp).2
      name fp id2).events = [] := by
  have h2 : lookupHost (insertHost store name fp) name = some fp :=
    lookupHost_insertHost store name fp
  refine ⟨?_, ?_, ?_⟩
  · simp [verifyTofu, tofuStatus, hnone, hask, applyAction]
  · simp [applyDecision, tofuStatus, h2]
  · rcases hct : cfg.onTrusted with _ | _ | _ | _
    · simp [verifyTofu, tofuStatus, applyDecision, h2, hct, applyAction]
    · simp [verifyTofu, tofuStatus, applyDecision, h2, hct, applyAction]
    · exact absurd hct htrusted
    · simp [verifyTofu, tofuStatus, applyDecision, h2, hct, applyAction]

/-- C1 witness: the amended claim at an empty store, server name `s`,
the zero fingerprint, and a policy asking the frontend on unknown but
trusting silently on trusted. -/
theorem c1_tofu_first_use_witness :
    (lookupHost [] ['s'] = none ∧
     (⟨CertVerifierAction.askFrontend, CertVerifierAction.trustWithoutStoring,
       CertVerifierAction.askFrontend⟩ : TrustOnFirstUseConfig).onUnknown =
       CertVerifierAction.askFrontend ∧
     (⟨CertVerifierAction.askFrontend, CertVerifierAction.trustWithoutStoring,
       CertVerifierAction.askFrontend⟩ : TrustOnFirstUseConfig).onTrusted ≠
       CertVerifierAction.askFrontend) ∧
    ((verifyTofu
      ⟨CertVerifierAction.askFrontend, CertVerifierAction.trustWithoutStoring,
        CertVerifierAction.askFrontend⟩ [] ['s'] zeroFingerprint 0).events =
      [⟨0, ⟨['s'], zeroFingerprint, none⟩,
        CertVerificationStatus.unknownCertificate⟩] ∧
    tofuStatus
      (applyDecision CertDecision.trustAndStore [] ['s'] zeroFingerprint).2
      ['s'] zeroFingerprint = CertVerificationStatus.trustedCertificate ∧
    (verifyTofu
      ⟨CertVerifierAction.askFrontend, CertVerifierAction.trustWithoutStoring,
        CertVerifierAction.askFrontend⟩
      (applyDecision CertDecision.trustAndStore [] ['s'] zeroFingerprint).2
      ['s'] zeroFingerprint 1).events = []) :=
  ⟨⟨rfl, rfl, by decide⟩,
    c1_tofu_first_use
      ⟨CertVerifierAction.askFrontend, CertVerifierAction.trustWithoutStoring,
        CertVerifierAction.askFrontend⟩ [] ['s'] zeroFingerprint 0 1 rfl rfl
      (by decide)⟩

end Quinnet
